import Mathlib

/-!
Verification of the semantic-search-with-keyword-fallback core of the
TribalCapturer backend.

Source of truth:
* `backend/src/services/semantic_search_service.py` — `cosine_similarity`
  (lines 26-30), `generate_embedding` (33-61), `semantic_search` (64-136),
  `keyword_search_fallback` (139-176), `search_autocomplete` (179-215);
* `backend/src/models/knowledge_entry.py` — the `KnowledgeEntry` columns;
* `backend/src/api/routes/knowledge.py` — the `/smart-search/` endpoint
  `intelligent_search` (its declared query-parameter constraints and body).

Modelling choices (shallow embedding):
* a `KnowledgeEntry` row is `Entry`; the record store is a `List Entry` in
  the store's natural order, and a SQLAlchemy `select ... where` is a
  `List.filter` over it, `limit` is `List.take`;
* SQL `col ILIKE '%pat%'` is a case-insensitive substring test; on a NULL
  (`Option.none`) column it does not match, mirroring SQL NULL semantics;
* similarity scores are rationals (`ℚ`), abstracting Python floats; the
  cosine arithmetic itself is embedded separately (`cosine_similarity`,
  over `ℝ` because of the square roots in the norms) and the pipeline
  receives the score function as an oracle `Env.cosSim`, since every
  pipeline property at issue depends only on comparisons of scores;
* the embedding adapter (`generate_embedding`) appears twice: as the
  oracle `Env.embed : String → Option (List ℚ)` consumed by the pipeline
  (`None` = the Unavailable outcome), and as the explicit model
  `generate_embedding` of its own internal failure handling, whose
  possible external outcomes are enumerated by `ApiOutcome`;
* Python's stable `list.sort(key=..., reverse=True)` is `List.mergeSort`
  with the Boolean comparison `b.2 ≤ a.2` (descending, ties keep input
  order);
* outbound I/O is made observable by `NetCall` traces computed by
  `semantic_search_calls` / `intelligent_search_calls`, which mirror the
  control flow of the corresponding functions branch for branch.
-/

namespace TribalCapturer

/-- Row of the `knowledge_entries` table (`KnowledgeEntry`,
`backend/src/models/knowledge_entry.py`), restricted to the columns the
search service reads. `provider_name` is nullable; `status` is `"draft"`
or `"published"`. -/
structure Entry where
  id : Nat
  ma_name : String
  facility : String
  specialty_service : String
  provider_name : Option String
  knowledge_type : String
  is_continuity_care : Bool
  knowledge_description : String
  status : String
  deriving DecidableEq

/-- Does `needle` occur as a contiguous run inside `hay`? (`List.tails`
lists every suffix; an occurrence is a prefix of some suffix.) -/
def hasSubstr (hay needle : List Char) : Bool :=
  hay.tails.any (fun t => needle.isPrefixOf t)

/-- SQL `field ILIKE '%pat%'` as the service builds it (the f-string wraps
the raw text in `%`): a case-insensitive substring test (lower-casing
character by character, as ILIKE does for ASCII). -/
def ilike (field pat : String) : Bool :=
  hasSubstr (field.toList.map Char.toLower) (pat.toList.map Char.toLower)

/-- The float literal `0.5` — the fixed keyword-match confidence score and
the default `min_similarity` — as a rational, written in lowest terms so
that it evaluates structurally; `half_eq` identifies it with `1 / 2`. -/
def half : ℚ := ⟨1, 2, by decide, Nat.coprime_one_left 2⟩

/-- SQL `col ILIKE '%pat%'` on a nullable column: NULL never matches. -/
def ilikeOpt (field : Option String) (pat : String) : Bool :=
  match field with
  | none => false
  | some s => ilike s pat

/-- The optional-filters dict the search functions receive. `none` models
an absent key (or an absent dict). A present key may still hold `""`,
which the service's truthiness test `filters.get(k)` treats as absent. -/
structure Filters where
  facility : Option String := none
  specialty : Option String := none
  provider : Option String := none
  knowledge_type : Option String := none
  is_continuity_care : Option Bool := none
  deriving DecidableEq

/-- Python truthiness of `filters.get(key)` for a string-valued key:
false for an absent key and for the empty string. -/
def strTruthy : Option String → Bool
  | none => false
  | some s => !(s == "")

/-- The `where` conditions `semantic_search` adds for the structured
filters (`semantic_search_service.py` lines 99-109): each string filter is
applied only when its value is truthy, `is_continuity_care` whenever it is
not `None`; applied conditions are conjoined. -/
def semanticFilterWhere (filters : Filters) (e : Entry) : Bool :=
  (if strTruthy filters.facility then ilike e.facility (filters.facility.getD "") else true) &&
  (if strTruthy filters.specialty then ilike e.specialty_service (filters.specialty.getD "") else true) &&
  (if strTruthy filters.provider then ilikeOpt e.provider_name (filters.provider.getD "") else true) &&
  (if strTruthy filters.knowledge_type then e.knowledge_type == filters.knowledge_type.getD "" else true) &&
  (match filters.is_continuity_care with
   | none => true
   | some b => e.is_continuity_care == b)

/-- The `where` conditions `keyword_search_fallback` adds for the
structured filters (`semantic_search_service.py` lines 159-169) — the
source repeats the block of lines 99-109 verbatim. -/
def keywordFilterWhere (filters : Filters) (e : Entry) : Bool :=
  (if strTruthy filters.facility then ilike e.facility (filters.facility.getD "") else true) &&
  (if strTruthy filters.specialty then ilike e.specialty_service (filters.specialty.getD "") else true) &&
  (if strTruthy filters.provider then ilikeOpt e.provider_name (filters.provider.getD "") else true) &&
  (if strTruthy filters.knowledge_type then e.knowledge_type == filters.knowledge_type.getD "" else true) &&
  (match filters.is_continuity_care with
   | none => true
   | some b => e.is_continuity_care == b)

/-- Candidate fetch of `semantic_search` (lines 96-112): all rows with
`status == "published"` that pass the structured filters, in store
order. -/
def fetchCandidates (db : List Entry) (filters : Filters) : List Entry :=
  db.filter (fun e => e.status == "published" && semanticFilterWhere filters e)

/-- The `or_` clause of `keyword_search_fallback` (lines 151-156): the
query as case-insensitive substring of description, specialty or facility,
or — only when `query` is truthy, because of the trailing
`... if query else False` — of the nullable provider column. -/
def keywordOrMatch (query : String) (e : Entry) : Bool :=
  ilike e.knowledge_description query ||
  ilike e.specialty_service query ||
  ilike e.facility query ||
  (if query == "" then false else ilikeOpt e.provider_name query)

/-- Keyword fallback search (`keyword_search_fallback`, lines 139-176):
published rows matching the `or_` clause and the structured filters, in
store order, truncated by `limit(top_k)`, each paired with the fixed
confidence score 0.5. -/
def keyword_search_fallback (db : List Entry) (query : String) (filters : Filters)
    (top_k : Nat) : List (Entry × ℚ) :=
  let entries :=
    (db.filter (fun e =>
      e.status == "published" && keywordOrMatch query e && keywordFilterWhere filters e)).take top_k
  entries.map (fun e => (e, half))

/-- The per-request external world: the embedding adapter
(`generate_embedding`; `none` is its Unavailable outcome), the score
function of line 125 (`cosine_similarity` on floats, abstracted to a
rational-valued oracle), and the record store's rows. -/
structure Env where
  embed : String → Option (List ℚ)
  cosSim : List ℚ → List ℚ → ℚ
  db : List Entry

/-- The scoring loop of `semantic_search` (lines 117-127): embed each
candidate's description, skip a candidate whose embedding is Unavailable,
and retain `(entry, similarity)` exactly when `similarity ≥
min_similarity`. -/
def scoreEntries (embed : String → Option (List ℚ)) (cosSim : List ℚ → List ℚ → ℚ)
    (query_embedding : List ℚ) (min_similarity : ℚ) : List Entry → List (Entry × ℚ)
  | [] => []
  | e :: rest =>
    match embed e.knowledge_description with
    | none => scoreEntries embed cosSim query_embedding min_similarity rest
    | some entry_embedding =>
      let similarity := cosSim query_embedding entry_embedding
      if similarity ≥ min_similarity then
        (e, similarity) :: scoreEntries embed cosSim query_embedding min_similarity rest
      else
        scoreEntries embed cosSim query_embedding min_similarity rest

/-- Python `scored_entries.sort(key=lambda x: x[1], reverse=True)` (line
135): a stable sort into descending score order (CPython's sort is stable
and `reverse=True` preserves the input order of equal keys). -/
def sortByScoreDesc (l : List (Entry × ℚ)) : List (Entry × ℚ) :=
  l.mergeSort (fun a b => decide (b.2 ≤ a.2))

/-- The semantic search pipeline (`semantic_search`, lines 64-136):
embed the query (Unavailable → keyword fallback verbatim); fetch the
filtered published candidates (empty → empty result); score and threshold
them (nothing retained → keyword fallback verbatim); otherwise sort by
score descending, stably, and return the first `top_k`. -/
def semantic_search (env : Env) (query : String) (filters : Filters) (top_k : Nat)
    (min_similarity : ℚ := half) : List (Entry × ℚ) :=
  match env.embed query with
  | none => keyword_search_fallback env.db query filters top_k
  | some query_embedding =>
    let entries := fetchCandidates env.db filters
    if entries = [] then []
    else
      let scored_entries := scoreEntries env.embed env.cosSim query_embedding min_similarity entries
      if scored_entries = [] then keyword_search_fallback env.db query filters top_k
      else (sortByScoreDesc scored_entries).take top_k

/-- Control-flow mirror of `semantic_search` recording whether the
`keyword_search_fallback` call is reached on a given request. -/
def invokes_keyword_fallback (env : Env) (query : String) (filters : Filters)
    (min_similarity : ℚ := half) : Bool :=
  match env.embed query with
  | none => true
  | some query_embedding =>
    let entries := fetchCandidates env.db filters
    if entries = [] then false
    else decide (scoreEntries env.embed env.cosSim query_embedding min_similarity entries = [])

/-- Field-name normalization of `search_autocomplete` (lines 198-200): a
field outside the allowed set silently falls back to
`"specialty_service"`. -/
def normalizeField (field : String) : String :=
  if ["provider_name", "specialty_service", "facility"].contains field then field
  else "specialty_service"

/-- Python `getattr(KnowledgeEntry, field)` for the three allowed columns
(line 202); `provider_name` is the nullable one. -/
def getColumn (e : Entry) (field : String) : Option String :=
  if field == "provider_name" then e.provider_name
  else if field == "facility" then some e.facility
  else some e.specialty_service

/-- Autocomplete helper (`search_autocomplete`, lines 179-215): published
rows whose chosen column is non-NULL and matches the query by
case-insensitive substring, the column values made distinct, capped at
`limit`; the function's final comprehension `if row[0]` (line 215) drops
falsy (empty) strings. -/
def search_autocomplete (db : List Entry) (query : String) (field : String)
    (limit : Nat) : List String :=
  let fld := normalizeField field
  let rows := (db.filterMap (fun e =>
    match getColumn e fld with
    | none => none
    | some v => if e.status == "published" && ilike v query then some v else none)).dedup.take limit
  rows.filter (fun v => !(v == ""))

/-- Possible outcomes of the one outbound call
`client.embeddings.create(...)` inside `generate_embedding` (lines 49-55):
a well-formed response carrying a vector, or one of the exception classes
the source's two `except` arms can see. `timeoutExp`, `authFailure`,
`rateLimited` and `networkErr` are the `OpenAIError` subclasses named in
the docstring; `malformedResp` is a response on which `response.data[0]`
raises; `otherExc` is any other `Exception`. -/
inductive ApiOutcome where
  | success (v : List ℚ)
  | timeoutExp
  | authFailure
  | rateLimited
  | networkErr
  | malformedResp
  | otherExc (msg : String)
  deriving DecidableEq

/-- The embedding adapter (`generate_embedding`, lines 33-61, together
with the module-level client setup of lines 19-23): when the client was
never initialized (missing/invalid configuration or credentials, or an
exception while constructing the client) it returns `none` without any
network call; otherwise it performs the call and maps every non-success
outcome — both `except` arms — to `none`. `none` is the single
Unavailable outcome; no error value is ever propagated. -/
def generate_embedding (clientInitialized : Bool) (call : ApiOutcome) :
    Option (List ℚ) :=
  if !clientInitialized then none
  else
    match call with
    | ApiOutcome.success v => some v
    | _ => none

/-- Dot product of two embedding vectors, `np.dot(a_np, b_np)` (line 30);
`np.dot` on unequal lengths raises, and the pipeline only compares vectors
produced by the one embedding model, so equal lengths are assumed by the
theorems that use this. -/
def dotProduct (a b : List ℚ) : ℚ := (List.zipWith (· * ·) a b).sum

/-- Euclidean norm `np.linalg.norm` (line 30). -/
noncomputable def vecNorm (a : List ℚ) : ℝ := Real.sqrt ((dotProduct a a : ℚ) : ℝ)

/-- Cosine similarity (`cosine_similarity`, lines 26-30):
`dot(a,b) / (norm(a) * norm(b))`. -/
noncomputable def cosine_similarity (a b : List ℚ) : ℝ :=
  ((dotProduct a b : ℚ) : ℝ) / (vecNorm a * vecNorm b)

/-- One outbound I/O operation of the search pipeline: an embedding-API
request issued by `generate_embedding`, or a record-store query. -/
inductive NetCall where
  | embedText (text : String)
  | dbSelect
  deriving DecidableEq

/-- The outbound I/O `semantic_search` performs, in source order, branch
for branch: the `generate_embedding(query)` attempt; on Unavailable the
fallback's single store query; otherwise the candidate fetch, one
`generate_embedding` per fetched candidate and, when no candidate clears
the threshold (and at least one was fetched), the fallback's store
query. -/
def semantic_search_calls (env : Env) (query : String) (filters : Filters)
    (min_similarity : ℚ := half) : List NetCall :=
  NetCall.embedText query ::
    match env.embed query with
    | none => [NetCall.dbSelect]
    | some query_embedding =>
      NetCall.dbSelect ::
        ((fetchCandidates env.db filters).map (fun e => NetCall.embedText e.knowledge_description) ++
          (if fetchCandidates env.db filters ≠ [] ∧
              scoreEntries env.embed env.cosSim query_embedding min_similarity
                (fetchCandidates env.db filters) = []
           then [NetCall.dbSelect] else []))

/-- The filters dict built by the `/smart-search/` route body
(`knowledge.py`): a key is added only when its query parameter is truthy
(`continuity_care_only`: whenever it is not `None`). -/
def routeFilters (facility specialty provider knowledge_type : Option String)
    (continuity_care_only : Option Bool) : Filters :=
  { facility := if strTruthy facility then facility else none
    specialty := if strTruthy specialty then specialty else none
    provider := if strTruthy provider then provider else none
    knowledge_type := if strTruthy knowledge_type then knowledge_type else none
    is_continuity_care := continuity_care_only }

/-- The `/smart-search/` endpoint (`intelligent_search`, `knowledge.py`).
FastAPI checks the declared constraints `q: Query(..., min_length=1)` and
`top_k: Query(10, ge=1, le=50)` before the handler body runs, answering
422 with a validation error; only past them does the body build the
filters dict and call `semantic_search` (which is the first point any
network traffic can happen). -/
def intelligent_search (env : Env) (q : String)
    (facility specialty provider knowledge_type : Option String)
    (continuity_care_only : Option Bool) (top_k : Int) :
    Except String (List (Entry × ℚ)) :=
  if q.length < 1 then Except.error "q: string should have at least 1 character"
  else if top_k < 1 then Except.error "top_k: input should be at least 1"
  else if top_k > 50 then Except.error "top_k: input should be at most 50"
  else Except.ok (semantic_search env q
    (routeFilters facility specialty provider knowledge_type continuity_care_only)
    top_k.toNat)

/-- The outbound I/O of one `/smart-search/` request: none at all when
FastAPI rejects the parameters, otherwise exactly the pipeline's. -/
def intelligent_search_calls (env : Env) (q : String)
    (facility specialty provider knowledge_type : Option String)
    (continuity_care_only : Option Bool) (top_k : Int) : List NetCall :=
  if q.length < 1 ∨ top_k < 1 ∨ top_k > 50 then []
  else semantic_search_calls env q
    (routeFilters facility specialty provider knowledge_type continuity_care_only)

/-- The match predicate exactly as the keyword-search contract words it:
published, the query a case-insensitive substring of any of description,
specialty, facility or provider (a null provider does not match), and
every specified structured filter satisfied. Stated from the spec's words,
to be compared with `keyword_search_fallback`'s own conditions. -/
def claimKeywordMatch (query : String) (filters : Filters) (e : Entry) : Bool :=
  e.status == "published" &&
  (ilike e.knowledge_description query || ilike e.specialty_service query ||
    ilike e.facility query || ilikeOpt e.provider_name query) &&
  keywordFilterWhere filters e

/-! Concrete data used by the closed witness/counterexample theorems. -/

/-- A published gastroenterology entry. -/
def eCrohn : Entry :=
  ⟨1, "Ana", "Mercy North", "Gastroenterology", some "Dr Reed", "diagnosis_specialty",
    false, "Crohn's disease scheduling notes", "published"⟩

/-- A published cardiology entry with a NULL provider. -/
def eCard : Entry :=
  ⟨2, "Bea", "Mercy South", "Cardiology", none, "general_knowledge",
    true, "Echo referrals", "published"⟩

/-- A draft (unpublished) entry. -/
def eDraft : Entry :=
  ⟨3, "Cal", "Mercy North", "Cardiac Surgery", none, "general_knowledge",
    false, "Cardiac surgery notes", "draft"⟩

/-- Environment in which the embedding service is down for every text. -/
def envDown : Env :=
  { embed := fun _ => none
    cosSim := fun _ _ => 0
    db := [eCrohn, eCard, eDraft] }

/-- Environment with working embeddings: each known text maps to a
one-element vector and the score oracle reads a vector's head, so with
`min_similarity = 1` exactly `eCrohn` (score 2) is retained, `eCard`
(score 0) is dropped and `eDraft` is excluded by the publication gate. -/
def envUp : Env :=
  { embed := fun t =>
      if t == "heart" then some [3]
      else if t == "Crohn's disease scheduling notes" then some [2]
      else if t == "Echo referrals" then some [0]
      else if t == "Cardiac surgery notes" then some [1]
      else none
    cosSim := fun _ v => v.headD 0
    db := [eCrohn, eCard, eDraft] }

/-- Environment with working embeddings over a store holding only a draft
entry, so the filtered candidate set is empty. -/
def envNoCand : Env :=
  { embed := fun _ => some [1]
    cosSim := fun _ v => v.headD 0
    db := [eDraft] }

/-! Helper lemmas shared by the claim theorems. -/

theorem half_eq : half = 1 / 2 := by
  have h := Rat.num_div_den half
  norm_num [half] at h
  exact h.symm

theorem nil_isPrefixOf (l : List Char) : List.isPrefixOf [] l = true := by
  cases l <;> rfl

theorem hasSubstr_nil (hay : List Char) : hasSubstr hay [] = true := by
  unfold hasSubstr
  rw [List.any_eq_true]
  exact ⟨hay, (List.mem_tails hay hay).mpr (List.suffix_refl hay), nil_isPrefixOf hay⟩

theorem ilike_empty_pat (s : String) : ilike s "" = true :=
  hasSubstr_nil (s.toList.map Char.toLower)

/-- The two verbatim copies of the structured-filter block (lines 99-109
and 159-169) denote the same conditions. -/
theorem filterWhere_eq : semanticFilterWhere = keywordFilterWhere := rfl

/-- Every element produced by the scoring loop is a fetched candidate, and
its score clears the threshold. -/
theorem mem_scoreEntries {embed : String → Option (List ℚ)}
    {cosSim : List ℚ → List ℚ → ℚ} {qv : List ℚ} {m : ℚ} :
    ∀ {l : List Entry} {p : Entry × ℚ},
      p ∈ scoreEntries embed cosSim qv m l → p.1 ∈ l ∧ m ≤ p.2
  | [], p, hp => by simp [scoreEntries] at hp
  | e :: rest, p, hp => by
    rw [scoreEntries] at hp
    rcases he : embed e.knowledge_description with _ | ev <;> rw [he] at hp <;>
      dsimp only at hp
    · have ih := mem_scoreEntries (l := rest) (p := p) hp
      exact ⟨List.mem_cons_of_mem e ih.1, ih.2⟩
    · by_cases hk : cosSim qv ev ≥ m
      · rw [if_pos hk] at hp
        rcases List.mem_cons.mp hp with h | h
        · subst h
          exact ⟨List.mem_cons_self e rest, hk⟩
        · have ih := mem_scoreEntries (l := rest) (p := p) h
          exact ⟨List.mem_cons_of_mem e ih.1, ih.2⟩
      · rw [if_neg hk] at hp
        have ih := mem_scoreEntries (l := rest) (p := p) hp
        exact ⟨List.mem_cons_of_mem e ih.1, ih.2⟩

/-- Every keyword-fallback result is a published row of the store that
matches the `or_` clause and the filters, and carries the score 0.5. -/
theorem mem_keyword_search {db : List Entry} {query : String} {filters : Filters}
    {top_k : Nat} {p : Entry × ℚ} (hp : p ∈ keyword_search_fallback db query filters top_k) :
    p.1 ∈ db ∧ p.1.status = "published" ∧ keywordOrMatch query p.1 = true ∧
      keywordFilterWhere filters p.1 = true ∧ p.2 = half := by
  unfold keyword_search_fallback at hp
  simp only [List.mem_map] at hp
  obtain ⟨e, he, rfl⟩ := hp
  have he' : e ∈ db.filter (fun e =>
      e.status == "published" && keywordOrMatch query e && keywordFilterWhere filters e) :=
    List.take_subset _ _ he
  rw [List.mem_filter] at he'
  obtain ⟨hmem, hcond⟩ := he'
  simp only [Bool.and_eq_true, beq_iff_eq] at hcond
  exact ⟨hmem, hcond.1.1, hcond.1.2, hcond.2, rfl⟩

/-- If the semantic candidate fetch is empty, the keyword fallback with
the same filters is empty too (its conditions only add the `or_`
clause). -/
theorem keyword_empty_of_no_candidates {db : List Entry} {filters : Filters}
    (h : fetchCandidates db filters = []) (query : String) (top_k : Nat) :
    keyword_search_fallback db query filters top_k = [] := by
  unfold fetchCandidates at h
  rw [List.filter_eq_nil_iff] at h
  unfold keyword_search_fallback
  have : db.filter (fun e =>
      e.status == "published" && keywordOrMatch query e && keywordFilterWhere filters e) = [] := by
    rw [List.filter_eq_nil_iff]
    intro e he hcond
    apply h e he
    simp only [Bool.and_eq_true] at hcond ⊢
    exact ⟨hcond.1.1, hcond.2⟩
  rw [this]
  simp

/-! The claims. -/

/-- C1: whenever the embedding adapter reports Unavailable (`none`) for
the query embedding, `semantic_search` returns exactly the ordered result
list of `keyword_search_fallback` called with the same query, filters and
`top_k`, verbatim. -/
theorem C1_fallback_totality (env : Env) (query : String) (filters : Filters)
    (top_k : Nat) (min_similarity : ℚ) (h : env.embed query = none) :
    semantic_search env query filters top_k min_similarity
      = keyword_search_fallback env.db query filters top_k := by
  unfold semantic_search
  rw [h]

theorem C1_fallback_totality_witness :
    envDown.embed "crohn" = none ∧
    semantic_search envDown "crohn" {} 10 1 = keyword_search_fallback envDown.db "crohn" {} 10 :=
  ⟨rfl, C1_fallback_totality envDown "crohn" {} 10 1 rfl⟩

/-- C7: the embedding adapter yields a vector or the single Unavailable
outcome `none`; a missing client (missing configuration or credentials)
and every non-success API outcome — timeout, authentication failure, rate
limiting, network error, malformed response, any other exception — map to
`none`, and no distinguishable error value exists to be propagated. -/
theorem C7_embedding_failure_totality (clientInitialized : Bool) (call : ApiOutcome) :
    (generate_embedding clientInitialized call = none ∨
      ∃ v, generate_embedding clientInitialized call = some v) ∧
    ((∀ v, call ≠ ApiOutcome.success v) → generate_embedding clientInitialized call = none) ∧
    (clientInitialized = false → generate_embedding clientInitialized call = none) ∧
    (∀ v, generate_embedding true (ApiOutcome.success v) = some v) := by
  refine ⟨?_, ?_, ?_, ?_⟩
  · cases h : generate_embedding clientInitialized call with
    | none => exact Or.inl rfl
    | some v => exact Or.inr ⟨v, rfl⟩
  · intro hfail
    cases call with
    | success v => exact absurd rfl (hfail v)
    | _ => cases clientInitialized <;> rfl
  · intro h
    subst h
    rfl
  · intro v
    rfl

/-- The `or_` clause of the source and the claim's four-field OR agree:
they differ only in the `... if query else False` guard on the provider
disjunct, which is unobservable because an empty query already matches
every description. -/
theorem keywordOrMatch_eq_claim (query : String) (filters : Filters) (e : Entry) :
    (e.status == "published" && keywordOrMatch query e && keywordFilterWhere filters e)
      = claimKeywordMatch query filters e := by
  unfold claimKeywordMatch keywordOrMatch
  by_cases h : query = ""
  · subst h
    simp [ilike_empty_pat]
  · have hb : (query == "") = false := by
      simp [h]
    rw [hb]
    simp

/-- C5 fails as frozen: it omits the `limit(top_k)` truncation. With
`top_k = 1`, `eCard` is published and matches "mercy" (via its facility)
yet is absent from the result, which keeps only the earlier match. -/
theorem C5_counterexample :
    claimKeywordMatch "mercy" {} eCard = true ∧ eCard ∈ envDown.db ∧
    eCard ∉ (keyword_search_fallback envDown.db "mercy" {} 1).map Prod.fst := by
  refine ⟨by decide, by decide, by decide⟩

/-- C5 (amended): `keyword_search_fallback` returns, each paired with the
score exactly 0.5, precisely the first `top_k` — in record-store order —
of those published candidates for which the query occurs case-insensitively
in at least one of description, specialty, facility or provider (null
provider does not match) and which satisfy every specified structured
filter. -/
theorem C5_keyword_characterization (db : List Entry) (query : String)
    (filters : Filters) (top_k : Nat) :
    keyword_search_fallback db query filters top_k
      = ((db.filter (claimKeywordMatch query filters)).take top_k).map (fun e => (e, 1/2)) ∧
    ∀ e : Entry, e ∈ (keyword_search_fallback db query filters top_k).map Prod.fst ↔
      e ∈ (db.filter (claimKeywordMatch query filters)).take top_k := by
  have hfil : db.filter (fun e =>
      e.status == "published" && keywordOrMatch query e && keywordFilterWhere filters e)
      = db.filter (claimKeywordMatch query filters) :=
    List.filter_congr (fun e _ => keywordOrMatch_eq_claim query filters e)
  constructor
  · unfold keyword_search_fallback
    rw [hfil]
    simp only [half_eq]
  · intro e
    unfold keyword_search_fallback
    rw [hfil]
    have hid : (Prod.fst ∘ fun e : Entry => (e, half)) = id := rfl
    simp [hid]

/-- C8: when the query embedding is available and the filtered candidate
set is empty, `semantic_search` returns the empty list and the keyword
fallback is not invoked. -/
theorem C8_empty_candidates (env : Env) (query : String) (filters : Filters)
    (top_k : Nat) (min_similarity : ℚ) (query_embedding : List ℚ)
    (h : env.embed query = some query_embedding)
    (hc : fetchCandidates env.db filters = []) :
    semantic_search env query filters top_k min_similarity = [] ∧
    invokes_keyword_fallback env query filters min_similarity = false := by
  constructor
  · simp [semantic_search, h, hc]
  · simp [invokes_keyword_fallback, h, hc]

theorem C8_empty_candidates_witness :
    semantic_search envNoCand "heart" {} 10 1 = [] ∧
    invokes_keyword_fallback envNoCand "heart" {} 1 = false :=
  C8_empty_candidates envNoCand "heart" {} 10 1 [1] rfl (by decide)

/-- C10: a present-but-empty (falsy) string filter is not applied at all —
for facility, specialty, provider and knowledge type alike — whereas
`is_continuity_care` is applied whenever it is not `None`, the value
`false` restricting results to non-continuity rows; and the two search
operations interpret an identical filter set identically. -/
theorem C10_falsy_filters (filters : Filters) (e : Entry) (b : Bool) :
    (semanticFilterWhere filters e = keywordFilterWhere filters e) ∧
    (semanticFilterWhere { filters with facility := some "" } e
       = semanticFilterWhere { filters with facility := none } e) ∧
    (semanticFilterWhere { filters with specialty := some "" } e
       = semanticFilterWhere { filters with specialty := none } e) ∧
    (semanticFilterWhere { filters with provider := some "" } e
       = semanticFilterWhere { filters with provider := none } e) ∧
    (semanticFilterWhere { filters with knowledge_type := some "" } e
       = semanticFilterWhere { filters with knowledge_type := none } e) ∧
    (semanticFilterWhere { filters with is_continuity_care := some b } e
       = (semanticFilterWhere { filters with is_continuity_care := none } e
           && (e.is_continuity_care == b))) := by
  refine ⟨rfl, rfl, rfl, rfl, rfl, ?_⟩
  unfold semanticFilterWhere
  simp [Bool.and_assoc]

/-- C4: a call of the search operation with an empty query or a
non-positive `top_k` fails fast with a validation error raised by the
declared parameter constraints, and no network call (no embedding request,
no record-store query) is issued. -/
theorem C4_validation_fail_fast (env : Env) (q : String)
    (facility specialty provider knowledge_type : Option String)
    (continuity_care_only : Option Bool) (top_k : Int)
    (h : q = "" ∨ top_k ≤ 0) :
    (∃ msg, intelligent_search env q facility specialty provider knowledge_type
        continuity_care_only top_k = Except.error msg) ∧
    intelligent_search_calls env q facility specialty provider knowledge_type
        continuity_care_only top_k = [] := by
  obtain h | h := h
  · subst h
    exact ⟨⟨_, rfl⟩, rfl⟩
  · have h1 : top_k < 1 := by omega
    constructor
    · unfold intelligent_search
      by_cases hq : q.length < 1
      · rw [if_pos hq]
        exact ⟨_, rfl⟩
      · rw [if_neg hq, if_pos h1]
        exact ⟨_, rfl⟩
    · unfold intelligent_search_calls
      rw [if_pos (Or.inr (Or.inl h1))]

theorem C4_validation_fail_fast_witness :
    (∃ msg, intelligent_search envUp "" none none none none none 10
        = Except.error msg) ∧
    intelligent_search_calls envUp "" none none none none none 10 = [] :=
  C4_validation_fail_fast envUp "" none none none none none 10 (Or.inl rfl)

/-- Membership in the truncated sorted list implies membership in the
scored list. -/
theorem mem_sorted_take {l : List (Entry × ℚ)} {p : Entry × ℚ} {k : Nat}
    (hp : p ∈ (sortByScoreDesc l).take k) : p ∈ l := by
  have h := List.take_subset _ _ hp
  rwa [sortByScoreDesc, List.mem_mergeSort] at h

/-- Every fetched candidate is a published row of the store passing the
structured filters. -/
theorem mem_fetchCandidates {db : List Entry} {filters : Filters} {e : Entry}
    (he : e ∈ fetchCandidates db filters) :
    e ∈ db ∧ e.status = "published" ∧ semanticFilterWhere filters e = true := by
  unfold fetchCandidates at he
  rw [List.mem_filter] at he
  simp only [Bool.and_eq_true, beq_iff_eq] at he
  exact ⟨he.1, he.2.1, he.2.2⟩

/-- C2: with the query embedding available, every result of the semantic
(non-fallback) path scores at least `min_similarity`; when no scored
candidate reaches `min_similarity`, the output equals the keyword search
output for the same query, filters and `top_k`; and at the default
threshold 0.5 every returned result — the fallback's included — scores at
least `min_similarity`. -/
theorem C2_threshold_correctness (env : Env) (query : String) (filters : Filters)
    (top_k : Nat) (min_similarity : ℚ) (query_embedding : List ℚ)
    (h : env.embed query = some query_embedding) :
    (scoreEntries env.embed env.cosSim query_embedding min_similarity
        (fetchCandidates env.db filters) ≠ [] →
      ∀ p ∈ semantic_search env query filters top_k min_similarity,
        min_similarity ≤ p.2) ∧
    (scoreEntries env.embed env.cosSim query_embedding min_similarity
        (fetchCandidates env.db filters) = [] →
      semantic_search env query filters top_k min_similarity
        = keyword_search_fallback env.db query filters top_k) ∧
    (min_similarity = 1 / 2 →
      ∀ p ∈ semantic_search env query filters top_k min_similarity,
        min_similarity ≤ p.2) := by
  by_cases hc : fetchCandidates env.db filters = []
  · have hsc : scoreEntries env.embed env.cosSim query_embedding min_similarity
        (fetchCandidates env.db filters) = [] := by
      rw [hc]
      rfl
    have hout : semantic_search env query filters top_k min_similarity = [] := by
      simp [semantic_search, h, hc]
    refine ⟨fun hne => absurd hsc hne, fun _ => ?_, fun _ => ?_⟩
    · rw [hout, keyword_empty_of_no_candidates hc query top_k]
    · rw [hout]
      intro p hp
      simp at hp
  · by_cases hs : scoreEntries env.embed env.cosSim query_embedding min_similarity
        (fetchCandidates env.db filters) = []
    · have hout : semantic_search env query filters top_k min_similarity
          = keyword_search_fallback env.db query filters top_k := by
        simp [semantic_search, h, hc, hs]
      refine ⟨fun hne => absurd hs hne, fun _ => hout, fun hm p hp => ?_⟩
      rw [hout] at hp
      rw [(mem_keyword_search hp).2.2.2.2, half_eq, hm]
    · have hout : semantic_search env query filters top_k min_similarity
          = (sortByScoreDesc (scoreEntries env.embed env.cosSim query_embedding
              min_similarity (fetchCandidates env.db filters))).take top_k := by
        simp [semantic_search, h, hc, hs]
      refine ⟨fun _ p hp => ?_, fun hemp => absurd hemp hs, fun _ p hp => ?_⟩
      · rw [hout] at hp
        exact (mem_scoreEntries (mem_sorted_take hp)).2
      · rw [hout] at hp
        exact (mem_scoreEntries (mem_sorted_take hp)).2

theorem C2_threshold_correctness_witness :
    semantic_search envUp "heart" {} 10 5 = keyword_search_fallback envUp.db "heart" {} 10 :=
  (C2_threshold_correctness envUp "heart" {} 10 5 [3] rfl).2.1 (by decide)

/-- C3: with the query embedding available and a non-empty retained set,
`semantic_search` returns exactly the retained candidates sorted by score
descending (a stable sort, so equal scores keep fetch order) truncated to
`top_k`: the output is the truncated stable sort, its scores are
non-increasing, its length is at most `top_k`, the sorted list is a
permutation of the retained list, and within any one score value the
sorted list preserves the retained list exactly. -/
theorem C3_ranking_order (env : Env) (query : String) (filters : Filters)
    (top_k : Nat) (min_similarity : ℚ) (query_embedding : List ℚ)
    (h : env.embed query = some query_embedding)
    (hs : scoreEntries env.embed env.cosSim query_embedding min_similarity
        (fetchCandidates env.db filters) ≠ []) :
    semantic_search env query filters top_k min_similarity
      = (sortByScoreDesc (scoreEntries env.embed env.cosSim query_embedding
          min_similarity (fetchCandidates env.db filters))).take top_k ∧
    (semantic_search env query filters top_k min_similarity).Pairwise
      (fun p q => q.2 ≤ p.2) ∧
    (semantic_search env query filters top_k min_similarity).length ≤ top_k ∧
    (sortByScoreDesc (scoreEntries env.embed env.cosSim query_embedding
        min_similarity (fetchCandidates env.db filters))).Perm
      (scoreEntries env.embed env.cosSim query_embedding min_similarity
        (fetchCandidates env.db filters)) ∧
    (∀ s : ℚ,
      (sortByScoreDesc (scoreEntries env.embed env.cosSim query_embedding
          min_similarity (fetchCandidates env.db filters))).filter
            (fun p => decide (p.2 = s))
        = (scoreEntries env.embed env.cosSim query_embedding min_similarity
            (fetchCandidates env.db filters)).filter (fun p => decide (p.2 = s))) := by
  have hc : fetchCandidates env.db filters ≠ [] := by
    intro hc
    exact hs (by rw [hc]; rfl)
  set l := scoreEntries env.embed env.cosSim query_embedding min_similarity
    (fetchCandidates env.db filters) with hl
  have htrans : ∀ a b c : Entry × ℚ, (decide (b.2 ≤ a.2)) → (decide (c.2 ≤ b.2)) →
      (decide (c.2 ≤ a.2)) := by
    intro a b c hab hbc
    exact decide_eq_true (le_trans (of_decide_eq_true hbc) (of_decide_eq_true hab))
  have htotal : ∀ a b : Entry × ℚ, (decide (b.2 ≤ a.2)) || (decide (a.2 ≤ b.2)) := by
    intro a b
    rcases le_total b.2 a.2 with hle | hle
    · simp [decide_eq_true hle]
    · simp [decide_eq_true hle]
  have hout : semantic_search env query filters top_k min_similarity
      = (sortByScoreDesc l).take top_k := by
    simp only [semantic_search, h, hl]
    rw [if_neg hc, if_neg hs]
  refine ⟨hout, ?_, ?_, ?_, ?_⟩
  · rw [hout]
    have hsorted : (sortByScoreDesc l).Pairwise (fun p q => (decide (q.2 ≤ p.2)) = true) :=
      List.sorted_mergeSort htrans htotal l
    have : (sortByScoreDesc l).Pairwise (fun p q => q.2 ≤ p.2) :=
      hsorted.imp (fun h => of_decide_eq_true h)
    exact this.sublist (List.take_sublist top_k _)
  · rw [hout, List.length_take]
    exact min_le_left _ _
  · exact List.mergeSort_perm l _
  · intro s
    set p := fun q : Entry × ℚ => decide (q.2 = s) with hp
    have hcsub : List.Sublist (l.filter p) l := List.filter_sublist l
    have hcpair : (l.filter p).Pairwise (fun a b => (decide (b.2 ≤ a.2)) = true) := by
      apply List.pairwise_of_forall_mem_list
      intro a ha b hb
      have ha' : a.2 = s := of_decide_eq_true (List.mem_filter.mp ha).2
      have hb' : b.2 = s := of_decide_eq_true (List.mem_filter.mp hb).2
      exact decide_eq_true (by rw [ha', hb'])
    have hsub : List.Sublist (l.filter p) (sortByScoreDesc l) :=
      List.sublist_mergeSort htrans htotal hcpair hcsub
    have hfix : (l.filter p).filter p = l.filter p :=
      List.filter_eq_self.mpr (fun a ha => (List.mem_filter.mp ha).2)
    have hsub2 : List.Sublist (l.filter p) ((sortByScoreDesc l).filter p) := by
      rw [← hfix]
      exact hsub.filter p
    have hperm : ((sortByScoreDesc l).filter p).Perm (l.filter p) :=
      (List.mergeSort_perm l _).filter p
    exact (hsub2.eq_of_length hperm.length_eq.symm).symm

theorem C3_ranking_order_witness :
    (semantic_search envUp "heart" {} 10 1).length ≤ 10 :=
  (C3_ranking_order envUp "heart" {} 10 1 [3] rfl (by decide)).2.2.1

/-- C6: no unpublished (draft) record ever appears in any result set:
every `semantic_search` result and every `keyword_search_fallback` result
references a published row, and every autocomplete suggestion is the
selected column's value of some published row. -/
theorem C6_publication_gate (env : Env) (db : List Entry) (query : String)
    (filters : Filters) (top_k : Nat) (min_similarity : ℚ) (field : String)
    (limit : Nat) :
    (∀ p ∈ semantic_search env query filters top_k min_similarity,
      p.1.status = "published") ∧
    (∀ p ∈ keyword_search_fallback db query filters top_k,
      p.1.status = "published") ∧
    (∀ v ∈ search_autocomplete db query field limit,
      ∃ e ∈ db, e.status = "published" ∧
        getColumn e (normalizeField field) = some v) := by
  refine ⟨?_, ?_, ?_⟩
  · intro p hp
    unfold semantic_search at hp
    rcases hq : env.embed query with _ | query_embedding <;> rw [hq] at hp <;>
      dsimp only at hp
    · exact (mem_keyword_search hp).2.1
    · by_cases hc : fetchCandidates env.db filters = []
      · rw [if_pos hc] at hp
        simp at hp
      · rw [if_neg hc] at hp
        by_cases hs : scoreEntries env.embed env.cosSim query_embedding min_similarity
            (fetchCandidates env.db filters) = []
        · rw [if_pos hs] at hp
          exact (mem_keyword_search hp).2.1
        · rw [if_neg hs] at hp
          exact (mem_fetchCandidates (mem_scoreEntries (mem_sorted_take hp)).1).2.1
  · intro p hp
    exact (mem_keyword_search hp).2.1
  · intro v hv
    unfold search_autocomplete at hv
    rw [List.mem_filter] at hv
    have hv' := List.take_subset _ _ hv.1
    rw [List.mem_dedup, List.mem_filterMap] at hv'
    obtain ⟨e, he, hcol⟩ := hv'
    rcases hg : getColumn e (normalizeField field) with _ | w <;> rw [hg] at hcol <;>
      dsimp only at hcol
    · exact absurd hcol (by simp)
    · by_cases hcond : (e.status == "published" && ilike w query) = true
      · rw [if_pos hcond] at hcol
        obtain ⟨hpub, _⟩ := Bool.and_eq_true_iff.mp hcond
        refine ⟨e, he, by simpa using hpub, ?_⟩
        rw [hg, Option.some_inj.mpr (Option.some_inj.mp hcol)]
      · rw [if_neg hcond] at hcol
        exact absurd hcol (by simp)

theorem C6_publication_gate_witness :
    eCrohn.status = "published" ∧ eCrohn.status = "published" ∧
    (∃ e ∈ envDown.db, e.status = "published" ∧
      getColumn e (normalizeField "facility") = some "Mercy North") :=
  ⟨(C6_publication_gate envDown envDown.db "mercy" {} 10 1 "facility" 10).1
      (eCrohn, half) (by decide),
    (C6_publication_gate envDown envDown.db "mercy" {} 10 1 "facility" 10).2.1
      (eCrohn, half) (by decide),
    (C6_publication_gate envDown envDown.db "mercy" {} 10 1 "facility" 10).2.2
      "Mercy North" (by decide)⟩

/-- Nonnegativity of the self dot product (a sum of squares). -/
theorem dotProduct_self_nonneg (a : List ℚ) : 0 ≤ dotProduct a a := by
  induction a with
  | nil => simp [dotProduct]
  | cons x xs ih =>
    have hx : 0 ≤ x * x := mul_self_nonneg x
    simp only [dotProduct, List.zipWith_cons_cons, List.sum_cons] at *
    exact add_nonneg hx ih

/-- Cauchy-Schwarz for list dot products. -/
theorem dotProduct_sq_le (a : List ℚ) : ∀ b : List ℚ,
    (dotProduct a b) ^ 2 ≤ dotProduct a a * dotProduct b b := by
  induction a with
  | nil =>
    intro b
    simp [dotProduct]
  | cons x xs ih =>
    intro b
    cases b with
    | nil => simp [dotProduct, mul_nonneg (dotProduct_self_nonneg (x :: xs))]
    | cons y ys =>
      have ihb := ih ys
      have hA := dotProduct_self_nonneg xs
      have hB := dotProduct_self_nonneg ys
      simp only [dotProduct, List.zipWith_cons_cons, List.sum_cons] at *
      set D := (List.zipWith (· * ·) xs ys).sum with hD
      set A := (List.zipWith (· * ·) xs xs).sum with hA2
      set B := (List.zipWith (· * ·) ys ys).sum with hB2
      have key : 2 * (x * y) * D ≤ x ^ 2 * B + y ^ 2 * A := by
        have h4 : (2 * (x * y) * D) ^ 2 ≤ (x ^ 2 * B + y ^ 2 * A) ^ 2 := by
          have hm : (x * y) ^ 2 * D ^ 2 ≤ (x * y) ^ 2 * (A * B) :=
            mul_le_mul_of_nonneg_left ihb (sq_nonneg (x * y))
          nlinarith [sq_nonneg (x ^ 2 * B - y ^ 2 * A)]
        have h5 : 0 ≤ x ^ 2 * B + y ^ 2 * A :=
          add_nonneg (mul_nonneg (sq_nonneg x) hB) (mul_nonneg (sq_nonneg y) hA)
        nlinarith [h4, h5]
      nlinarith [key, ihb]

/-- C9: a returned score is either the cosine similarity
`dot(a,b) / (norm(a) * norm(b))` — lying in `[-1, 1]` whenever the two
equal-length vectors make it defined (non-degenerate norms) — or the
keyword path's fixed sentinel 0.5. -/
theorem C9_score_values (a b : List ℚ) (db : List Entry) (query : String)
    (filters : Filters) (top_k : Nat)
    (hlen : a.length = b.length)
    (ha : 0 < dotProduct a a) (hb : 0 < dotProduct b b) :
    (-1 ≤ cosine_similarity a b ∧ cosine_similarity a b ≤ 1) ∧
    ∀ p ∈ keyword_search_fallback db query filters top_k, p.2 = 1 / 2 := by
  constructor
  · have hD : ((dotProduct a b : ℚ) : ℝ) ^ 2
        ≤ ((dotProduct a a : ℚ) : ℝ) * ((dotProduct b b : ℚ) : ℝ) := by
      exact_mod_cast dotProduct_sq_le a b
    have haR : (0 : ℝ) < ((dotProduct a a : ℚ) : ℝ) := by exact_mod_cast ha
    have hbR : (0 : ℝ) < ((dotProduct b b : ℚ) : ℝ) := by exact_mod_cast hb
    have hnA : 0 < vecNorm a := Real.sqrt_pos.mpr haR
    have hnB : 0 < vecNorm b := Real.sqrt_pos.mpr hbR
    have habs : |((dotProduct a b : ℚ) : ℝ)| ≤ vecNorm a * vecNorm b := by
      have h1 : |((dotProduct a b : ℚ) : ℝ)|
          = Real.sqrt (((dotProduct a b : ℚ) : ℝ) ^ 2) :=
        (Real.sqrt_sq_eq_abs _).symm
      rw [h1, vecNorm, vecNorm, ← Real.sqrt_mul haR.le]
      exact Real.sqrt_le_sqrt hD
    have hcos : |cosine_similarity a b| ≤ 1 := by
      rw [cosine_similarity, abs_div, abs_of_pos (mul_pos hnA hnB)]
      exact (div_le_one (mul_pos hnA hnB)).mpr habs
    exact abs_le.mp hcos
  · intro p hp
    rw [(mem_keyword_search hp).2.2.2.2, half_eq]

theorem C9_score_values_witness :
    -1 ≤ cosine_similarity [1] [1] ∧ cosine_similarity [1] [1] ≤ 1 :=
  (C9_score_values [1] [1] [] "" {} 0 rfl
    (by simp [dotProduct]) (by simp [dotProduct])).1

end TribalCapturer
